import Mathlib

/-!
Verification of the balance-consistency core of the flowtrance finance
backend.  The embedded code comes from:

- src/controllers/transactionController.js (transaction lifecycle),
- src/controllers/budgetController.js (savings deduction engine,
  deductFromSavings and updateTargetProgress),
- the borrowing controller (createBorrowing, updateBorrowing,
  togglePaidStatus),
- the account controller (transferFunds).

JavaScript numbers are modelled as rationals (the code only adds,
subtracts, negates, compares and takes min, max and absolute values,
all exact on the decimal amounts involved).  Mongo collections are
modelled as lists; the relative order of stored records is immaterial
to every property proved here, since the code reads the collections
only through filters, folds and explicit sorts.
-/

namespace Flowtrance

/-- Transaction kind, the `type` enum of the Transaction schema
(income, expense, transfer). -/
inductive TxType
  | income
  | expense
  | transfer
deriving DecidableEq, Repr

/-- A stored Transaction record, reduced to the fields the balance
logic reads: its identifier, kind and amount. -/
structure Tx where
  id : Nat
  type : TxType
  amount : ℚ
deriving DecidableEq, Repr

/-- A stored Account record: identifier, balance and active flag. -/
structure Account where
  id : Nat
  balance : ℚ
  isActive : Bool
deriving DecidableEq, Repr

/-- A stored TargetSavings record, reduced to the fields the savings
engine reads.  `createdAt` is the creation timestamp used as the sort
tie-breaker. -/
structure TargetSavings where
  id : Nat
  currentAmount : ℚ
  targetAmount : ℚ
  monthlyTarget : ℚ
  isActive : Bool
  createdAt : Nat
deriving DecidableEq, Repr

/-- Balance delta applied by createTransaction
(transactionController.js line 45):
the ternary `type === "income" ? amount : -amount`. -/
def createBalanceChange (ty : TxType) (amount : ℚ) : ℚ :=
  if ty = TxType.income then amount else -amount

/-- Balance delta applied by deleteTransaction
(transactionController.js lines 235-236):
the ternary `transaction.type === "income" ? -transaction.amount :
transaction.amount`. -/
def deleteBalanceChange (ty : TxType) (amount : ℚ) : ℚ :=
  if ty = TxType.income then -amount else amount

/-- New balance computed by updateTransaction
(transactionController.js lines 170-186).  The adjustment runs only
when the request carries an `amount` or a `type` field; missing fields
fall back to the stored ones, mirroring
`updateData.amount || oldAmount` on the validated positive inputs. -/
def txUpdateBalance (balance : ℚ) (oldType : TxType) (oldAmount : ℚ)
    (updType : Option TxType) (updAmount : Option ℚ) : ℚ :=
  if updAmount.isSome ∨ updType.isSome then
    let newAmount := updAmount.getD oldAmount
    let newType := updType.getD oldType
    balance + (createBalanceChange newType newAmount - createBalanceChange oldType oldAmount)
  else balance

/-- Sum of the balances of the active accounts: the Account aggregate
in transactionController.js lines 52-64, which matches the active
accounts of the user and sums their balance field (an empty aggregate
yields 0, as does the empty sum). -/
def totalActiveBalance (accounts : List Account) : ℚ :=
  ((accounts.filter (fun a => a.isActive)).map (fun a => a.balance)).sum

/-- Sum of `monthlyTarget` over the active savings targets
(transactionController.js lines 65-68). -/
def totalMonthlyTarget (targets : List TargetSavings) : ℚ :=
  ((targets.filter (fun t => t.isActive)).map (fun t => t.monthlyTarget)).sum

/-- Sum of `targetAmount` over the active savings targets (used by the
claimed variant of the overspend check). -/
def totalTargetAmount (targets : List TargetSavings) : ℚ :=
  ((targets.filter (fun t => t.isActive)).map (fun t => t.targetAmount)).sum

/-- Sum of `currentAmount` over a list of savings targets. -/
def sumCurrentAmount (targets : List TargetSavings) : ℚ :=
  (targets.map (fun t => t.currentAmount)).sum

/-- The overspend check run by createTransaction on an expense
(transactionController.js lines 50-73): compute
`availableForSpending = totalBalance - totalMonthlyTarget` and, when
it is negative, invoke deductFromSavings with its absolute value.  The
returned option is the amount passed to deductFromSavings, `none`
meaning no deduction is invoked. -/
def overspendDeduction (accounts : List Account) (targets : List TargetSavings) : Option ℚ :=
  let availableForSpending := totalActiveBalance accounts - totalMonthlyTarget targets
  if availableForSpending < 0 then some |availableForSpending| else none

/-- Modelled from the claim wording of C2 (not from the source): the
deficit is the sum of the configured `targetAmount` values of the
active targets minus the total active balance, and deduction is
invoked with exactly that deficit iff it is positive. -/
def claimedOverspendDeduction (accounts : List Account) (targets : List TargetSavings) : Option ℚ :=
  let deficit := totalTargetAmount targets - totalActiveBalance accounts
  if 0 < deficit then some deficit else none

/-- Ordering used by deductFromSavings when fetching targets
(budgetController.js line 583): `sort({currentAmount: -1, createdAt:
-1})`, i.e. currentAmount descending with ties broken by creation time
descending. -/
def deductBefore (a b : TargetSavings) : Prop :=
  b.currentAmount < a.currentAmount ∨
    (a.currentAmount = b.currentAmount ∧ b.createdAt ≤ a.createdAt)

instance : DecidableRel deductBefore := fun a b => by
  unfold deductBefore
  infer_instance

instance : IsTotal TargetSavings deductBefore := by
  constructor
  intro a b
  unfold deductBefore
  rcases lt_trichotomy a.currentAmount b.currentAmount with h | h | h
  · exact Or.inr (Or.inl h)
  · rcases Nat.le_total b.createdAt a.createdAt with hk | hk
    · exact Or.inl (Or.inr ⟨h, hk⟩)
    · exact Or.inr (Or.inr ⟨h.symm, hk⟩)
  · exact Or.inl (Or.inl h)

instance : IsTrans TargetSavings deductBefore := by
  constructor
  intro a b c hab hbc
  unfold deductBefore at *
  rcases hab with h1 | ⟨h1, h1k⟩ <;> rcases hbc with h2 | ⟨h2, h2k⟩
  · exact Or.inl (h2.trans h1)
  · exact Or.inl (h2 ▸ h1)
  · exact Or.inl (h1 ▸ h2)
  · exact Or.inr ⟨h1.trans h2, h2k.trans h1k⟩

/-- The sorted fetch of active targets used by deductFromSavings: any
list realisation of the Mongo sort order; insertion sort realises
it. -/
def sortSavings (targets : List TargetSavings) : List TargetSavings :=
  List.insertionSort deductBefore targets

/-- The deduction loop of deductFromSavings
(budgetController.js lines 585-593): walk the sorted targets, break
once `remaining <= 0`, per target take `deduction =
min(currentAmount, remaining)` and, when positive, floor the new
currentAmount at 0 and decrement the remaining deficit. -/
def walkDeduct : ℚ → List TargetSavings → List TargetSavings
  | _, [] => []
  | remaining, t :: ts =>
    if remaining ≤ 0 then t :: ts
    else if 0 < min t.currentAmount remaining then
      { t with currentAmount := max (t.currentAmount - min t.currentAmount remaining) 0 }
        :: walkDeduct (remaining - min t.currentAmount remaining) ts
    else
      t :: walkDeduct remaining ts

/-- deductFromSavings (budgetController.js lines 575-597): return
unchanged unless the deficit is positive (`if (!remaining || remaining
<= 0) return`), otherwise walk the active targets in sorted order and
deduct; inactive targets are never touched.  The result collection is
returned with the walked active part first, which is immaterial for a
Mongo collection. -/
def deductFromSavings (deficitAmount : ℚ) (targets : List TargetSavings) : List TargetSavings :=
  if deficitAmount ≤ 0 then targets
  else
    walkDeduct deficitAmount (sortSavings (targets.filter (fun t => t.isActive)))
      ++ targets.filter (fun t => !t.isActive)

/-- updateTargetProgress (budgetController.js lines 600-624): a no-op
unless the transaction kind is expense, in which case the raw amount
is added to the currentAmount of every active target. -/
def updateTargetProgress (amount : ℚ) (ty : TxType) (targets : List TargetSavings) : List TargetSavings :=
  if ty = TxType.expense then
    targets.map (fun t =>
      if t.isActive then { t with currentAmount := t.currentAmount + amount } else t)
  else targets

/-- State of a user with a single (active) account: its balance, the
stored transactions and the stored savings targets. -/
structure LedgerState where
  balance : ℚ
  txs : List Tx
  targets : List TargetSavings
deriving DecidableEq, Repr

/-- A validated request to the transaction lifecycle manager.  Update
carries the optional new kind and amount of the request body. -/
inductive TxOp
  | create (id : Nat) (ty : TxType) (amount : ℚ)
  | update (id : Nat) (ty : Option TxType) (amount : Option ℚ)
  | delete (id : Nat)
deriving DecidableEq, Repr

/-- Replace the first record bearing the given id
(`findByIdAndUpdate`). -/
def modifyFirst (i : Nat) (f : Tx → Tx) : List Tx → List Tx
  | [] => []
  | t :: ts => if t.id = i then f t :: ts else t :: modifyFirst i f ts

/-- Remove the first record bearing the given id
(`findByIdAndDelete`). -/
def removeFirst (i : Nat) : List Tx → List Tx
  | [] => []
  | t :: ts => if t.id = i then ts else t :: removeFirst i ts

/-- One step of the transaction lifecycle manager
(transactionController.js):

- create (lines 10-104): persist the record, apply
  createBalanceChange, then for an expense run the overspend check on
  the post-update balance and finally updateTargetProgress;
- update (lines 154-218): if the record exists, adjust the balance via
  txUpdateBalance and persist the new kind and amount;
- delete (lines 220-257): if the record exists, apply
  deleteBalanceChange and remove it.  Neither update nor delete
  touches the savings targets. -/
def applyOp (s : LedgerState) : TxOp → LedgerState
  | TxOp.create i ty amount =>
    let balance := s.balance + createBalanceChange ty amount
    let targets :=
      if ty = TxType.expense then
        match overspendDeduction [Account.mk 0 balance true] s.targets with
        | some deficit => deductFromSavings deficit s.targets
        | none => s.targets
      else s.targets
    LedgerState.mk balance (Tx.mk i ty amount :: s.txs) (updateTargetProgress amount ty targets)
  | TxOp.update i ty amount =>
    match s.txs.find? (fun t => t.id = i) with
    | none => s
    | some t =>
      LedgerState.mk (txUpdateBalance s.balance t.type t.amount ty amount)
        (modifyFirst i (fun o => Tx.mk o.id (ty.getD o.type) (amount.getD o.amount)) s.txs)
        s.targets
  | TxOp.delete i =>
    match s.txs.find? (fun t => t.id = i) with
    | none => s
    | some t =>
      LedgerState.mk (s.balance + deleteBalanceChange t.type t.amount)
        (removeFirst i s.txs) s.targets

/-- Run a sequence of transaction operations. -/
def applyOps (s : LedgerState) (ops : List TxOp) : LedgerState :=
  ops.foldl applyOp s

/-- The operation only involves the income and expense kinds. -/
def TxOp.incomeExpenseOnly : TxOp → Prop
  | TxOp.create _ ty _ => ty ≠ TxType.transfer
  | TxOp.update _ ty _ => ty ≠ some TxType.transfer
  | TxOp.delete _ => True

instance (op : TxOp) : Decidable op.incomeExpenseOnly := by
  cases op <;> simp only [TxOp.incomeExpenseOnly] <;> infer_instance

/-- Signed balance effect of a stored transaction (the create-time
delta). -/
def txEffectSum (txs : List Tx) : ℚ :=
  (txs.map (fun t => createBalanceChange t.type t.amount)).sum

/-- Sum of the amounts of the income transactions. -/
def incomeSum (txs : List Tx) : ℚ :=
  ((txs.filter (fun t => t.type = TxType.income)).map (fun t => t.amount)).sum

/-- Sum of the amounts of the expense transactions. -/
def expenseSum (txs : List Tx) : ℚ :=
  ((txs.filter (fun t => t.type = TxType.expense)).map (fun t => t.amount)).sum

/-- No stored transaction has the transfer kind. -/
def noTransfer (txs : List Tx) : Prop :=
  ∀ t ∈ txs, t.type ≠ TxType.transfer

/-- Direction of a borrowing record. -/
inductive BorrowType
  | borrowed
  | lent
deriving DecidableEq, Repr

/-- New balance computed by updateBorrowing
(borrowing controller lines 189-212): when the request carries an
amount or a type, first revert the old effect (borrowed subtracts,
lent adds back), then apply the new effect under the resolved new
type and amount. -/
def borrowUpdateBalance (balance : ℚ) (oldType : BorrowType) (oldAmount : ℚ)
    (updType : Option BorrowType) (updAmount : Option ℚ) : ℚ :=
  if updAmount.isSome ∨ updType.isSome then
    let reverted :=
      match oldType with
      | BorrowType.borrowed => balance - oldAmount
      | BorrowType.lent => balance + oldAmount
    let newType := updType.getD oldType
    let newAmount := updAmount.getD oldAmount
    match newType with
    | BorrowType.borrowed => reverted + newAmount
    | BorrowType.lent => reverted - newAmount
  else balance

/-- Sign correspondence between the two enums: a borrowed record adds
to the balance like an income, a lent record subtracts like an
expense. -/
def borrowToTxType : BorrowType → TxType
  | BorrowType.borrowed => TxType.income
  | BorrowType.lent => TxType.expense

/-- A borrowing record, reduced to the fields togglePaidStatus
reads. -/
structure Borrowing where
  type : BorrowType
  amount : ℚ
  isPaid : Bool
  paidDate : Option Nat
  repaymentTransactionId : Option Nat
deriving DecidableEq, Repr

/-- Kind of the settlement transaction created when marking paid
(borrowing controller lines 267-268). -/
def repaymentTxType : BorrowType → TxType
  | BorrowType.borrowed => TxType.expense
  | BorrowType.lent => TxType.income

/-- State of one borrowing record together with its linked account
balance and the stored transactions. -/
structure BorrowState where
  balance : ℚ
  borrowing : Borrowing
  txs : List Tx
deriving DecidableEq, Repr

/-- togglePaidStatus (borrowing controller lines 234-341).  Marking
paid with no stored settlement reference creates the settlement
transaction, applies the inverse of the original borrowing effect and
stores the reference; with a reference present it only refreshes
isPaid and paidDate.  Marking unpaid with a reference deletes that
transaction, restores the original effect and clears the reference.
`newTxId` is the identifier Mongo assigns to a newly created
settlement transaction and `now` the current date. -/
def togglePaidStatus (s : BorrowState) (isPaid : Bool) (newTxId now : Nat) : BorrowState :=
  if isPaid then
    match s.borrowing.repaymentTransactionId with
    | none =>
      let b := s.borrowing
      let balance :=
        match b.type with
        | BorrowType.borrowed => s.balance - b.amount
        | BorrowType.lent => s.balance + b.amount
      BorrowState.mk balance
        (Borrowing.mk b.type b.amount true (some now) (some newTxId))
        (Tx.mk newTxId (repaymentTxType b.type) b.amount :: s.txs)
    | some _ =>
      let b := s.borrowing
      BorrowState.mk s.balance
        (Borrowing.mk b.type b.amount true (some now) b.repaymentTransactionId) s.txs
  else
    match s.borrowing.repaymentTransactionId with
    | some rid =>
      let b := s.borrowing
      let balance :=
        match b.type with
        | BorrowType.borrowed => s.balance + b.amount
        | BorrowType.lent => s.balance - b.amount
      BorrowState.mk balance (Borrowing.mk b.type b.amount false none none)
        (s.txs.filter (fun t => t.id ≠ rid))
    | none =>
      let b := s.borrowing
      BorrowState.mk s.balance (Borrowing.mk b.type b.amount false none none) s.txs

/-- Failure cases of transferFunds, in the order the code checks
them. -/
inductive TransferError
  | notFound
  | sameAccount
  | insufficientFunds
deriving DecidableEq, Repr

/-- State read and written by transferFunds: the accounts of the user
and the stored transactions. -/
structure TransferState where
  accounts : List Account
  txs : List Tx
deriving DecidableEq, Repr

/-- transferFunds (account controller lines 125-196): both accounts
must exist (else 404); transfers to the same account are rejected,
then transfers exceeding the source balance; otherwise the source is
debited, the destination credited, and a single transfer-typed
transaction is recorded. -/
def transferFunds (s : TransferState) (fromAccountId toAccountId : Nat)
    (amount : ℚ) (newTxId : Nat) : Except TransferError TransferState :=
  match s.accounts.find? (fun a => a.id = fromAccountId),
        s.accounts.find? (fun a => a.id = toAccountId) with
  | some fromAccount, some _ =>
    if fromAccountId = toAccountId then Except.error TransferError.sameAccount
    else if fromAccount.balance < amount then Except.error TransferError.insufficientFunds
    else
      Except.ok (TransferState.mk
        (s.accounts.map (fun a =>
          if a.id = fromAccountId then Account.mk a.id (a.balance - amount) a.isActive
          else if a.id = toAccountId then Account.mk a.id (a.balance + amount) a.isActive
          else a))
        (Tx.mk newTxId TxType.transfer amount :: s.txs))
  | _, _ => Except.error TransferError.notFound

/-- The state after a transferFunds call: a failed call leaves the
stored state untouched. -/
def runTransfer (s : TransferState) (fromAccountId toAccountId : Nat)
    (amount : ℚ) (newTxId : Nat) : TransferState :=
  match transferFunds s fromAccountId toAccountId amount newTxId with
  | Except.ok s2 => s2
  | Except.error _ => s

/-- Setting the currentAmount field sets the currentAmount field. -/
theorem currentAmount_set (x : TargetSavings) (q : ℚ) :
    ({ x with currentAmount := q }).currentAmount = q := rfl

/-- Unfolding lemma for sumCurrentAmount on a cons cell. -/
theorem sumCurrentAmount_cons (t : TargetSavings) (ts : List TargetSavings) :
    sumCurrentAmount (t :: ts) = t.currentAmount + sumCurrentAmount ts := by
  simp [sumCurrentAmount]

/-- A sum of nonnegative currentAmounts is nonnegative. -/
theorem sumCurrentAmount_nonneg (ts : List TargetSavings)
    (h : ∀ t ∈ ts, 0 ≤ t.currentAmount) : 0 ≤ sumCurrentAmount ts := by
  unfold sumCurrentAmount
  apply List.sum_nonneg
  intro x hx
  rcases List.mem_map.mp hx with ⟨t, ht, rfl⟩
  exact h t ht

/-- Permuted target lists have the same currentAmount sum. -/
theorem sumCurrentAmount_perm {ts1 ts2 : List TargetSavings} (h : ts1.Perm ts2) :
    sumCurrentAmount ts1 = sumCurrentAmount ts2 :=
  (h.map _).sum_eq

/-- The currentAmount sum splits over append. -/
theorem sumCurrentAmount_append (l1 l2 : List TargetSavings) :
    sumCurrentAmount (l1 ++ l2) = sumCurrentAmount l1 + sumCurrentAmount l2 := by
  simp [sumCurrentAmount]

/-- The sorted fetch is a permutation of the fetched targets. -/
theorem sortSavings_perm (ts : List TargetSavings) : (sortSavings ts).Perm ts :=
  List.perm_insertionSort _ _

/-- The sorted fetch is sorted by currentAmount descending with ties
broken by creation time descending. -/
theorem sortSavings_sorted (ts : List TargetSavings) :
    List.Sorted deductBefore (sortSavings ts) :=
  List.sorted_insertionSort _ _

/-- The deduction walk keeps every currentAmount nonnegative. -/
theorem walkDeduct_nonneg (r : ℚ) (ts : List TargetSavings)
    (h : ∀ t ∈ ts, 0 ≤ t.currentAmount) :
    ∀ t ∈ walkDeduct r ts, 0 ≤ t.currentAmount := by
  induction ts generalizing r with
  | nil =>
    intro t ht
    simp [walkDeduct] at ht
  | cons a ts ih =>
    intro t ht
    rw [walkDeduct] at ht
    by_cases hr : r ≤ 0
    · rw [if_pos hr] at ht
      exact h t ht
    · rw [if_neg hr] at ht
      by_cases hd : 0 < min a.currentAmount r
      · rw [if_pos hd] at ht
        rcases List.mem_cons.mp ht with h1 | h1
        · subst h1
          exact le_max_right _ 0
        · exact ih _ (fun u hu => h u (List.mem_cons_of_mem _ hu)) t h1
      · rw [if_neg hd] at ht
        rcases List.mem_cons.mp ht with h1 | h1
        · subst h1
          exact h t (List.mem_cons_self _ _)
        · exact ih _ (fun u hu => h u (List.mem_cons_of_mem _ hu)) t h1

/-- The deduction walk removes exactly min(remaining, available) from
the total saved amount: everything up to the remaining deficit, or the
whole pot when it is smaller. -/
theorem walkDeduct_sum (r : ℚ) (ts : List TargetSavings)
    (hr : 0 ≤ r) (h : ∀ t ∈ ts, 0 ≤ t.currentAmount) :
    sumCurrentAmount ts - sumCurrentAmount (walkDeduct r ts)
      = min r (sumCurrentAmount ts) := by
  induction ts generalizing r with
  | nil =>
    simp [walkDeduct, sumCurrentAmount, min_eq_right hr]
  | cons a ts ih =>
    have ha : 0 ≤ a.currentAmount := h a (List.mem_cons_self _ _)
    have hts : ∀ t ∈ ts, 0 ≤ t.currentAmount := fun t ht => h t (List.mem_cons_of_mem _ ht)
    have hsum : 0 ≤ sumCurrentAmount ts := sumCurrentAmount_nonneg ts hts
    rw [walkDeduct]
    by_cases hr0 : r ≤ 0
    · have hzero : r = 0 := le_antisymm hr0 hr
      subst hzero
      rw [if_pos le_rfl, min_eq_left (sumCurrentAmount_nonneg _ h)]
      ring
    · rw [if_neg hr0]
      have hrpos : 0 < r := not_le.mp hr0
      by_cases hd : 0 < min a.currentAmount r
      · rw [if_pos hd]
        simp only [sumCurrentAmount_cons, currentAmount_set]
        rw [max_eq_left (sub_nonneg.mpr (min_le_left a.currentAmount r))]
        have ih2 := ih (r - min a.currentAmount r) (sub_nonneg.mpr (min_le_right _ _)) hts
        rcases le_total a.currentAmount r with hc | hc
        · rw [min_eq_left hc] at ih2 ⊢
          have hmin : a.currentAmount + min (r - a.currentAmount) (sumCurrentAmount ts)
              = min r (a.currentAmount + sumCurrentAmount ts) := by
            rw [← min_add_add_left]
            have harith : a.currentAmount + (r - a.currentAmount) = r := by ring
            rw [harith]
          linarith [ih2, hmin]
        · rw [min_eq_right hc] at ih2 ⊢
          have h0 : r - r = 0 := sub_self r
          rw [h0] at ih2 ⊢
          rw [min_eq_left hsum] at ih2
          have hr2 : min r (a.currentAmount + sumCurrentAmount ts) = r :=
            min_eq_left (by linarith)
          rw [hr2]
          linarith [ih2]
      · have hc0 : a.currentAmount = 0 := by
          rcases le_total a.currentAmount r with hc | hc
          · have hle := not_lt.mp hd
            rw [min_eq_left hc] at hle
            exact le_antisymm hle ha
          · have hle := not_lt.mp hd
            rw [min_eq_right hc] at hle
            exact absurd hrpos (not_lt.mpr hle)
        rw [if_neg hd, sumCurrentAmount_cons, sumCurrentAmount_cons, hc0]
        have ih2 := ih r hr hts
        simp only [zero_add]
        linarith [ih2]

/-- deductFromSavings keeps every currentAmount nonnegative, for any
deficit argument. -/
theorem deductFromSavings_nonneg (D : ℚ) (ts : List TargetSavings)
    (h : ∀ t ∈ ts, 0 ≤ t.currentAmount) :
    ∀ t ∈ deductFromSavings D ts, 0 ≤ t.currentAmount := by
  intro t ht
  unfold deductFromSavings at ht
  by_cases hD : D ≤ 0
  · rw [if_pos hD] at ht
    exact h t ht
  · rw [if_neg hD] at ht
    rcases List.mem_append.mp ht with h1 | h1
    · refine walkDeduct_nonneg D _ ?_ t h1
      intro u hu
      exact h u (List.mem_of_mem_filter ((sortSavings_perm _).mem_iff.mp hu))
    · exact h t (List.mem_of_mem_filter h1)

/-- For a positive deficit, deductFromSavings removes exactly
min(deficit, total active savings) from the total saved amount. -/
theorem deductFromSavings_sum (D : ℚ) (ts : List TargetSavings)
    (hD : 0 < D) (h : ∀ t ∈ ts, 0 ≤ t.currentAmount) :
    sumCurrentAmount ts - sumCurrentAmount (deductFromSavings D ts)
      = min D (sumCurrentAmount (ts.filter (fun t => t.isActive))) := by
  unfold deductFromSavings
  rw [if_neg (not_le.mpr hD)]
  have hperm := sortSavings_perm (ts.filter (fun t => t.isActive))
  have hact : ∀ t ∈ sortSavings (ts.filter (fun t => t.isActive)), 0 ≤ t.currentAmount := by
    intro u hu
    exact h u (List.mem_of_mem_filter (hperm.mem_iff.mp hu))
  have hwalk := walkDeduct_sum D _ (le_of_lt hD) hact
  rw [sumCurrentAmount_append]
  have hsplit : sumCurrentAmount (ts.filter (fun t => t.isActive))
      + sumCurrentAmount (ts.filter (fun t => !t.isActive)) = sumCurrentAmount ts := by
    rw [← sumCurrentAmount_append]
    exact sumCurrentAmount_perm (List.filter_append_perm _ ts)
  rw [sumCurrentAmount_perm hperm] at hwalk
  linarith [hwalk, hsplit]

/-- C3: for a positive deficit and nonnegative stored amounts,
deductFromSavings walks the active targets ordered by currentAmount
descending with ties broken by creation time descending, never drives
any currentAmount below 0, removes in total exactly the minimum of the
deficit and the available active savings, hence at most the deficit,
stopping once the deficit is covered and silently deducting everything
available when the targets are insufficient (the function has no error
channel at all). -/
theorem deductFromSavings_spec (D : ℚ) (ts : List TargetSavings)
    (hD : 0 < D) (hnn : ∀ t ∈ ts, 0 ≤ t.currentAmount) :
    (∀ t ∈ deductFromSavings D ts, 0 ≤ t.currentAmount) ∧
    sumCurrentAmount ts - sumCurrentAmount (deductFromSavings D ts)
      = min D (sumCurrentAmount (ts.filter (fun t => t.isActive))) ∧
    sumCurrentAmount ts - sumCurrentAmount (deductFromSavings D ts) ≤ D ∧
    List.Sorted deductBefore (sortSavings (ts.filter (fun t => t.isActive))) ∧
    (sortSavings (ts.filter (fun t => t.isActive))).Perm
      (ts.filter (fun t => t.isActive)) := by
  refine ⟨deductFromSavings_nonneg D ts hnn, deductFromSavings_sum D ts hD hnn, ?_,
    sortSavings_sorted _, sortSavings_perm _⟩
  rw [deductFromSavings_sum D ts hD hnn]
  exact min_le_left _ _

/-- Witness for deductFromSavings_spec on two concrete targets and a
deficit of 5. -/
theorem deductFromSavings_spec_witness :
    (0:ℚ) < 5 ∧
    (∀ t ∈ ([TargetSavings.mk 1 3 10 1 true 0, TargetSavings.mk 2 4 10 2 true 1] :
        List TargetSavings), 0 ≤ t.currentAmount) ∧
    (∀ t ∈ deductFromSavings 5 [TargetSavings.mk 1 3 10 1 true 0, TargetSavings.mk 2 4 10 2 true 1],
      0 ≤ t.currentAmount) ∧
    sumCurrentAmount [TargetSavings.mk 1 3 10 1 true 0, TargetSavings.mk 2 4 10 2 true 1]
      - sumCurrentAmount (deductFromSavings 5
          [TargetSavings.mk 1 3 10 1 true 0, TargetSavings.mk 2 4 10 2 true 1]) ≤ 5 :=
  ⟨by decide, by decide,
   (deductFromSavings_spec 5 [TargetSavings.mk 1 3 10 1 true 0, TargetSavings.mk 2 4 10 2 true 1]
      (by decide) (by decide)).1,
   (deductFromSavings_spec 5 [TargetSavings.mk 1 3 10 1 true 0, TargetSavings.mk 2 4 10 2 true 1]
      (by decide) (by decide)).2.2.1⟩

/-- updateTargetProgress keeps every currentAmount nonnegative when
the posted amount is nonnegative. -/
theorem updateTargetProgress_nonneg (amount : ℚ) (ty : TxType) (ts : List TargetSavings)
    (h : ∀ t ∈ ts, 0 ≤ t.currentAmount) (hamount : 0 ≤ amount) :
    ∀ t ∈ updateTargetProgress amount ty ts, 0 ≤ t.currentAmount := by
  intro t ht
  unfold updateTargetProgress at ht
  by_cases hty : ty = TxType.expense
  · rw [if_pos hty] at ht
    rcases List.mem_map.mp ht with ⟨u, hu, rfl⟩
    by_cases hact : u.isActive
    · rw [if_pos hact]
      show 0 ≤ u.currentAmount + amount
      exact add_nonneg (h u hu) hamount
    · rw [if_neg hact]
      exact h u hu
  · rw [if_neg hty] at ht
    exact h t ht

/-- C7: both mutators of the currentAmount field, the savings
deduction and the expense progress update, keep every stored
currentAmount at or above 0, for every deficit, every nonnegative
posted amount and every state whose amounts start nonnegative. -/
theorem savings_currentAmount_nonneg (D amount : ℚ) (ty : TxType) (ts : List TargetSavings)
    (hnn : ∀ t ∈ ts, 0 ≤ t.currentAmount) (hamount : 0 ≤ amount) :
    (∀ t ∈ deductFromSavings D ts, 0 ≤ t.currentAmount) ∧
    (∀ t ∈ updateTargetProgress amount ty ts, 0 ≤ t.currentAmount) :=
  ⟨deductFromSavings_nonneg D ts hnn, updateTargetProgress_nonneg amount ty ts hnn hamount⟩

/-- Witness for savings_currentAmount_nonneg on a concrete state. -/
theorem savings_currentAmount_nonneg_witness :
    (∀ t ∈ ([TargetSavings.mk 1 2 10 1 true 0] : List TargetSavings), 0 ≤ t.currentAmount) ∧
    (0:ℚ) ≤ 3 ∧
    (∀ t ∈ deductFromSavings 7 [TargetSavings.mk 1 2 10 1 true 0], 0 ≤ t.currentAmount) ∧
    (∀ t ∈ updateTargetProgress 3 TxType.expense [TargetSavings.mk 1 2 10 1 true 0],
      0 ≤ t.currentAmount) :=
  ⟨by decide, by decide,
   (savings_currentAmount_nonneg 7 3 TxType.expense [TargetSavings.mk 1 2 10 1 true 0]
      (by decide) (by decide)).1,
   (savings_currentAmount_nonneg 7 3 TxType.expense [TargetSavings.mk 1 2 10 1 true 0]
      (by decide) (by decide)).2⟩

/-- C2 counterexample: the overspend check of createTransaction does
not use the configured target amounts.  With one active account of
balance 50 and one active target with targetAmount 100 but
monthlyTarget 1, the claimed check would deduct a deficit of 50 while
the code deducts nothing. -/
theorem overspend_targetAmount_counterexample :
    overspendDeduction [Account.mk 0 50 true] [TargetSavings.mk 0 0 100 1 true 0] = none ∧
    claimedOverspendDeduction [Account.mk 0 50 true] [TargetSavings.mk 0 0 100 1 true 0]
      = some 50 := by
  constructor
  · norm_num [overspendDeduction, totalActiveBalance, totalMonthlyTarget]
  · norm_num [claimedOverspendDeduction, totalActiveBalance, totalTargetAmount]

/-- C2 (amended): the overspend check of createTransaction computes
the deficit as the sum of the monthlyTarget values of the active
savings targets minus the post-update total balance of the active
accounts, and it invokes deductFromSavings, with exactly that deficit,
iff the deficit is positive. -/
theorem overspend_monthlyTarget_spec (accounts : List Account) (targets : List TargetSavings) :
    overspendDeduction accounts targets
      = (if 0 < totalMonthlyTarget targets - totalActiveBalance accounts
         then some (totalMonthlyTarget targets - totalActiveBalance accounts)
         else none) := by
  simp only [overspendDeduction]
  by_cases h : totalActiveBalance accounts - totalMonthlyTarget targets < 0
  · rw [if_pos h, if_pos (by linarith)]
    rw [abs_of_neg h]
    congr 1
    ring
  · rw [if_neg h, if_neg (by intro hc; exact h (by linarith))]

/-- C6: for every old kind and amount and every partial update, the
single net-delta adjustment of updateTransaction and the
reverse-then-reapply adjustment of updateBorrowing produce the same
final balance, under the sign correspondence borrowed-income and
lent-expense. -/
theorem update_delta_equivalence (balance oldAmount : ℚ) (oldType : BorrowType)
    (updType : Option BorrowType) (updAmount : Option ℚ) :
    borrowUpdateBalance balance oldType oldAmount updType updAmount
      = txUpdateBalance balance (borrowToTxType oldType) oldAmount
          (updType.map borrowToTxType) updAmount := by
  rcases updType with _ | bt
  all_goals rcases updAmount with _ | a
  all_goals cases oldType
  all_goals try cases bt
  all_goals simp [borrowUpdateBalance, txUpdateBalance, borrowToTxType, createBalanceChange]
  all_goals ring

/-- C10: the balance delta of both createTransaction and
deleteTransaction is decided solely by whether the kind equals income:
any two kinds agreeing on income-ness get the same delta, and the
transfer kind is debited minus-amount on create and credited
plus-amount on delete, exactly like an expense. -/
theorem balance_sign_rule (ty1 ty2 : TxType) (amount : ℚ)
    (h : ty1 = TxType.income ↔ ty2 = TxType.income) :
    createBalanceChange ty1 amount = createBalanceChange ty2 amount ∧
    deleteBalanceChange ty1 amount = deleteBalanceChange ty2 amount ∧
    createBalanceChange TxType.transfer amount = -amount ∧
    deleteBalanceChange TxType.transfer amount = amount := by
  cases ty1 <;> cases ty2 <;> simp_all [createBalanceChange, deleteBalanceChange]

/-- Witness for balance_sign_rule at the transfer and expense kinds. -/
theorem balance_sign_rule_witness :
    createBalanceChange TxType.transfer 5 = createBalanceChange TxType.expense 5 ∧
    deleteBalanceChange TxType.transfer 5 = deleteBalanceChange TxType.expense 5 ∧
    createBalanceChange TxType.transfer 5 = -5 ∧
    deleteBalanceChange TxType.transfer 5 = 5 :=
  balance_sign_rule TxType.transfer TxType.expense 5 (by decide)

/-- C4: creating a transaction of any kind and immediately deleting it
restores the account balance to exactly its value before the
create. -/
theorem create_delete_roundtrip (s : LedgerState) (i : Nat) (ty : TxType) (amount : ℚ) :
    (applyOp (applyOp s (TxOp.create i ty amount)) (TxOp.delete i)).balance = s.balance := by
  simp only [applyOp]
  rw [List.find?_cons_of_pos _ (by simp)]
  cases ty <;> simp [createBalanceChange, deleteBalanceChange]

/-- C8: deleting an owned transaction adds its amount back to the
account if it was an expense and subtracts it if it was an income,
removes exactly that record, and leaves every savings target
untouched. -/
theorem delete_reverses_and_frames (s : LedgerState) (i : Nat) (t : Tx)
    (h : s.txs.find? (fun x => x.id = i) = some t) :
    (applyOp s (TxOp.delete i)).balance = s.balance + deleteBalanceChange t.type t.amount ∧
    (t.type = TxType.expense → (applyOp s (TxOp.delete i)).balance = s.balance + t.amount) ∧
    (t.type = TxType.income → (applyOp s (TxOp.delete i)).balance = s.balance - t.amount) ∧
    (applyOp s (TxOp.delete i)).txs = removeFirst i s.txs ∧
    (applyOp s (TxOp.delete i)).targets = s.targets := by
  have hstep : applyOp s (TxOp.delete i)
      = LedgerState.mk (s.balance + deleteBalanceChange t.type t.amount)
          (removeFirst i s.txs) s.targets := by
    simp only [applyOp, h]
  refine ⟨by rw [hstep], ?_, ?_, by rw [hstep], by rw [hstep]⟩
  · intro hty
    rw [hstep]
    simp [deleteBalanceChange, hty]
  · intro hty
    rw [hstep]
    simp [deleteBalanceChange, hty]
    ring

/-- Witness for delete_reverses_and_frames on a concrete ledger. -/
theorem delete_reverses_and_frames_witness :
    (applyOp (LedgerState.mk 10 [Tx.mk 3 TxType.expense 4] []) (TxOp.delete 3)).balance
      = 10 + deleteBalanceChange TxType.expense 4 ∧
    (applyOp (LedgerState.mk 10 [Tx.mk 3 TxType.expense 4] []) (TxOp.delete 3)).targets = [] :=
  ⟨(delete_reverses_and_frames (LedgerState.mk 10 [Tx.mk 3 TxType.expense 4] []) 3
      (Tx.mk 3 TxType.expense 4) (by decide)).1,
   (delete_reverses_and_frames (LedgerState.mk 10 [Tx.mk 3 TxType.expense 4] []) 3
      (Tx.mk 3 TxType.expense 4) (by decide)).2.2.2.2⟩

/-- C5: toggling an unpaid borrowing carrying no settlement reference
to paid and then back to unpaid restores the linked account balance to
its value before the first toggle, deletes the settlement transaction
the paid toggle created, clears the stored reference and resets isPaid
and paidDate, leaving no orphaned settlement transaction.  The
freshness hypothesis says the settlement gets an identifier not used
by any stored transaction. -/
theorem borrowing_toggle_roundtrip (s : BorrowState) (i now1 now2 : Nat)
    (hUnpaid : s.borrowing.isPaid = false)
    (hRef : s.borrowing.repaymentTransactionId = none)
    (hFresh : ∀ t ∈ s.txs, t.id ≠ i) :
    (togglePaidStatus (togglePaidStatus s true i now1) false i now2).balance = s.balance ∧
    (togglePaidStatus (togglePaidStatus s true i now1) false i now2).txs = s.txs ∧
    (togglePaidStatus (togglePaidStatus s true i now1) false i now2).borrowing.repaymentTransactionId
      = none ∧
    (togglePaidStatus (togglePaidStatus s true i now1) false i now2).borrowing.isPaid = false ∧
    (togglePaidStatus (togglePaidStatus s true i now1) false i now2).borrowing.paidDate = none := by
  cases hty : s.borrowing.type <;>
    simp [togglePaidStatus, hRef, hty] <;>
    exact fun a ha => hFresh a ha

/-- Witness for borrowing_toggle_roundtrip on a concrete unpaid lent
record. -/
theorem borrowing_toggle_roundtrip_witness :
    (togglePaidStatus (togglePaidStatus
        (BorrowState.mk 100 (Borrowing.mk BorrowType.lent 30 false none none) [])
        true 7 1) false 7 2).balance = 100 ∧
    (togglePaidStatus (togglePaidStatus
        (BorrowState.mk 100 (Borrowing.mk BorrowType.lent 30 false none none) [])
        true 7 1) false 7 2).txs = [] ∧
    (togglePaidStatus (togglePaidStatus
        (BorrowState.mk 100 (Borrowing.mk BorrowType.lent 30 false none none) [])
        true 7 1) false 7 2).borrowing.repaymentTransactionId = none ∧
    (togglePaidStatus (togglePaidStatus
        (BorrowState.mk 100 (Borrowing.mk BorrowType.lent 30 false none none) [])
        true 7 1) false 7 2).borrowing.isPaid = false ∧
    (togglePaidStatus (togglePaidStatus
        (BorrowState.mk 100 (Borrowing.mk BorrowType.lent 30 false none none) [])
        true 7 1) false 7 2).borrowing.paidDate = none :=
  borrowing_toggle_roundtrip
    (BorrowState.mk 100 (Borrowing.mk BorrowType.lent 30 false none none)

      []) 7 1 2 rfl rfl (by decide)

/-- find? by identifier commutes with mapping an id-preserving
function over the accounts. -/
theorem find?_map_preserve (f : Account → Account) (hid : ∀ a, (f a).id = a.id) (i : Nat) :
    ∀ l : List Account,
      (l.map f).find? (fun a => a.id = i) = (l.find? (fun a => a.id = i)).map f := by
  intro l
  induction l with
  | nil => rfl
  | cons a l ih =>
    by_cases h : a.id = i
    · rw [List.map_cons, List.find?_cons_of_pos _ (by simp [hid, h]),
        List.find?_cons_of_pos _ (by simp [h]), Option.map_some']
    · rw [List.map_cons, List.find?_cons_of_neg _ (by simp [hid, h]),
        List.find?_cons_of_neg _ (by simp [h]), ih]

/-- C9: with both accounts present and owned, a transfer to the same
account or one exceeding the source balance fails with a validation
error and leaves the stored state, hence both balances, unchanged;
otherwise the call succeeds, debits the source by exactly the amount,
credits the destination by exactly the amount, and records exactly one
new transfer-typed transaction. -/
theorem transferFunds_spec (s : TransferState) (fromAccountId toAccountId newTxId : Nat)
    (amount : ℚ) (fa ta : Account)
    (hf : s.accounts.find? (fun a => a.id = fromAccountId) = some fa)
    (ht : s.accounts.find? (fun a => a.id = toAccountId) = some ta) :
    ((fromAccountId = toAccountId ∨ fa.balance < amount) →
      (∃ e, transferFunds s fromAccountId toAccountId amount newTxId = Except.error e) ∧
      runTransfer s fromAccountId toAccountId amount newTxId = s) ∧
    (fromAccountId ≠ toAccountId → ¬ fa.balance < amount →
      ∃ s2, transferFunds s fromAccountId toAccountId amount newTxId = Except.ok s2 ∧
        s2.accounts.find? (fun a => a.id = fromAccountId)
          = some (Account.mk fa.id (fa.balance - amount) fa.isActive) ∧
        s2.accounts.find? (fun a => a.id = toAccountId)
          = some (Account.mk ta.id (ta.balance + amount) ta.isActive) ∧
        s2.txs = Tx.mk newTxId TxType.transfer amount :: s.txs) := by
  have hfa : fa.id = fromAccountId := by simpa using List.find?_some hf
  have hta : ta.id = toAccountId := by simpa using List.find?_some ht
  constructor
  · intro hbad
    have herr : ∃ e, transferFunds s fromAccountId toAccountId amount newTxId
        = Except.error e := by
      simp only [transferFunds, hf, ht]
      rcases hbad with hsame | hlt
      · rw [if_pos hsame]
        exact ⟨_, rfl⟩
      · by_cases hsame : fromAccountId = toAccountId
        · rw [if_pos hsame]
          exact ⟨_, rfl⟩
        · rw [if_neg hsame, if_pos hlt]
          exact ⟨_, rfl⟩
    refine ⟨herr, ?_⟩
    rcases herr with ⟨e, he⟩
    unfold runTransfer
    rw [he]
  · intro hne hge
    have hid : ∀ a : Account,
        ((fun a => if a.id = fromAccountId then Account.mk a.id (a.balance - amount) a.isActive
          else if a.id = toAccountId then Account.mk a.id (a.balance + amount) a.isActive
          else a) a).id = a.id := by
      intro a
      by_cases h1 : a.id = fromAccountId <;> by_cases h2 : a.id = toAccountId <;>
        simp [h1, h2, Ne.symm hne]
    have haccounts : ∀ (A : List Account) (B : List Tx), (TransferState.mk A B).accounts = A :=
      fun A B => rfl
    simp only [transferFunds, hf, ht]
    rw [if_neg hne, if_neg hge]
    refine ⟨_, rfl, ?_, ?_, rfl⟩
    · rw [haccounts, find?_map_preserve _ hid fromAccountId s.accounts, hf, Option.map_some']
      congr 1
      rw [if_pos hfa]
    · rw [haccounts, find?_map_preserve _ hid toAccountId s.accounts, ht, Option.map_some']
      congr 1
      rw [if_neg (by rw [hta]; exact fun hh => hne hh.symm), if_pos hta]

/-- Witness for transferFunds_spec on two concrete accounts. -/
theorem transferFunds_spec_witness :
    ((1 = 2 ∨ (100:ℚ) < 40) →
      (∃ e, transferFunds (TransferState.mk [Account.mk 1 100 true, Account.mk 2 5 true] [])
          1 2 40 9 = Except.error e) ∧
      runTransfer (TransferState.mk [Account.mk 1 100 true, Account.mk 2 5 true] []) 1 2 40 9
        = TransferState.mk [Account.mk 1 100 true, Account.mk 2 5 true] []) ∧
    (1 ≠ 2 → ¬ (100:ℚ) < 40 →
      ∃ s2, transferFunds (TransferState.mk [Account.mk 1 100 true, Account.mk 2 5 true] [])
          1 2 40 9 = Except.ok s2 ∧
        s2.accounts.find? (fun a => a.id = 1) = some (Account.mk 1 (100 - 40) true) ∧
        s2.accounts.find? (fun a => a.id = 2) = some (Account.mk 2 (5 + 40) true) ∧
        s2.txs = [Tx.mk 9 TxType.transfer 40]) :=
  transferFunds_spec (TransferState.mk [Account.mk 1 100 true, Account.mk 2 5 true] [])
    1 2 9 40 (Account.mk 1 100 true) (Account.mk 2 5 true) (by decide) (by decide)

/-- Unfolding lemma for txEffectSum on a cons cell. -/
theorem txEffectSum_cons (t : Tx) (ts : List Tx) :
    txEffectSum (t :: ts) = createBalanceChange t.type t.amount + txEffectSum ts := by
  simp [txEffectSum]

/-- The delete-time delta is the negation of the create-time delta,
for every kind. -/
theorem deleteBalanceChange_eq_neg (ty : TxType) (amount : ℚ) :
    deleteBalanceChange ty amount = -createBalanceChange ty amount := by
  cases ty <;> simp [createBalanceChange, deleteBalanceChange]

/-- Effect-sum change caused by updating the first record with a given
id to the requested kind and amount. -/
theorem modifyFirst_update_sum (i : Nat) (ty : Option TxType) (amount : Option ℚ)
    (l : List Tx) : ∀ t : Tx, l.find? (fun x => x.id = i) = some t →
      txEffectSum (modifyFirst i
          (fun o => Tx.mk o.id (ty.getD o.type) (amount.getD o.amount)) l)
        = txEffectSum l - createBalanceChange t.type t.amount
            + createBalanceChange (ty.getD t.type) (amount.getD t.amount) := by
  induction l with
  | nil =>
    intro t ht
    simp at ht
  | cons a l ih =>
    intro t ht
    by_cases h : a.id = i
    · rw [List.find?_cons_of_pos _ (by simp [h])] at ht
      have ha : a = t := Option.some.inj ht
      subst ha
      rw [modifyFirst, if_pos h, txEffectSum_cons, txEffectSum_cons]
      dsimp only
      ring
    · rw [List.find?_cons_of_neg _ (by simp [h])] at ht
      rw [modifyFirst, if_neg h, txEffectSum_cons, txEffectSum_cons, ih t ht]
      ring

/-- Effect-sum change caused by removing the first record with a given
id. -/
theorem removeFirst_sum (i : Nat) (l : List Tx) :
    ∀ t : Tx, l.find? (fun x => x.id = i) = some t →
      txEffectSum (removeFirst i l)
        = txEffectSum l - createBalanceChange t.type t.amount := by
  induction l with
  | nil =>
    intro t ht
    simp at ht
  | cons a l ih =>
    intro t ht
    by_cases h : a.id = i
    · rw [List.find?_cons_of_pos _ (by simp [h])] at ht
      have ha : a = t := Option.some.inj ht
      subst ha
      rw [removeFirst, if_pos h, txEffectSum_cons]
      ring
    · rw [List.find?_cons_of_neg _ (by simp [h])] at ht
      rw [removeFirst, if_neg h, txEffectSum_cons, txEffectSum_cons, ih t ht]
      ring

/-- Members of the modified list come from the original list, directly
or through the update function. -/
theorem mem_modifyFirst (i : Nat) (f : Tx → Tx) (l : List Tx) :
    ∀ x ∈ modifyFirst i f l, x ∈ l ∨ ∃ y ∈ l, x = f y := by
  induction l with
  | nil =>
    intro x hx
    simp [modifyFirst] at hx
  | cons a l ih =>
    intro x hx
    rw [modifyFirst] at hx
    by_cases h : a.id = i
    · rw [if_pos h] at hx
      rcases List.mem_cons.mp hx with h1 | h1
      · exact Or.inr ⟨a, List.mem_cons_self _ _, h1⟩
      · exact Or.inl (List.mem_cons_of_mem _ h1)
    · rw [if_neg h] at hx
      rcases List.mem_cons.mp hx with h1 | h1
      · exact Or.inl (by rw [h1]; exact List.mem_cons_self _ _)
      · rcases ih x h1 with h2 | ⟨y, hy, h2⟩
        · exact Or.inl (List.mem_cons_of_mem _ h2)
        · exact Or.inr ⟨y, List.mem_cons_of_mem _ hy, h2⟩

/-- Members of the shortened list come from the original list. -/
theorem mem_removeFirst (i : Nat) (l : List Tx) :
    ∀ x ∈ removeFirst i l, x ∈ l := by
  induction l with
  | nil =>
    intro x hx
    simp [removeFirst] at hx
  | cons a l ih =>
    intro x hx
    rw [removeFirst] at hx
    by_cases h : a.id = i
    · rw [if_pos h] at hx
      exact List.mem_cons_of_mem _ hx
    · rw [if_neg h] at hx
      rcases List.mem_cons.mp hx with h1 | h1
      · rw [h1]
        exact List.mem_cons_self _ _
      · exact List.mem_cons_of_mem _ (ih x h1)

/-- Every single transaction operation preserves the quantity balance
minus effect-sum: the balance delta it applies equals the effect-sum
delta of the record change it persists. -/
theorem applyOp_balance (s : LedgerState) (op : TxOp) :
    (applyOp s op).balance - txEffectSum (applyOp s op).txs
      = s.balance - txEffectSum s.txs := by
  cases op with
  | create i ty amount =>
    simp only [applyOp, txEffectSum_cons]
    ring
  | update i ty amount =>
    cases hfind : s.txs.find? (fun t => t.id = i) with
    | none => simp only [applyOp, hfind]
    | some t =>
      simp only [applyOp, hfind]
      rw [modifyFirst_update_sum i ty amount s.txs t hfind]
      simp only [txUpdateBalance]
      by_cases hsome : amount.isSome ∨ ty.isSome
      · rw [if_pos hsome]
        ring
      · rw [if_neg hsome]
        push_neg at hsome
        obtain ⟨h1, h2⟩ := hsome
        have h1n : amount = none := by
          cases amount with
          | none => rfl
          | some a => simp at h1
        have h2n : ty = none := by
          cases ty with
          | none => rfl
          | some ty2 => simp at h2
        subst h1n
        subst h2n
        simp only [Option.getD_none]
        ring
  | delete i =>
    cases hfind : s.txs.find? (fun t => t.id = i) with
    | none => simp only [applyOp, hfind]
    | some t =>
      simp only [applyOp, hfind]
      rw [removeFirst_sum i s.txs t hfind, deleteBalanceChange_eq_neg]
      ring

/-- Any sequence of transaction operations preserves the quantity
balance minus effect-sum. -/
theorem applyOps_balance (ops : List TxOp) :
    ∀ s : LedgerState,
      (applyOps s ops).balance - txEffectSum (applyOps s ops).txs
        = s.balance - txEffectSum s.txs := by
  induction ops with
  | nil =>
    intro s
    rfl
  | cons op ops ih =>
    intro s
    simp only [applyOps, List.foldl_cons]
    rw [show List.foldl applyOp (applyOp s op) ops = applyOps (applyOp s op) ops from rfl,
      ih (applyOp s op)]
    exact applyOp_balance s op

/-- A single operation restricted to the income and expense kinds
keeps the store free of transfer-typed records. -/
theorem applyOp_noTransfer (s : LedgerState) (op : TxOp)
    (hs : noTransfer s.txs) (hop : op.incomeExpenseOnly) :
    noTransfer (applyOp s op).txs := by
  cases op with
  | create i ty amount =>
    intro t ht
    simp only [applyOp] at ht
    rcases List.mem_cons.mp ht with h1 | h1
    · rw [h1]
      exact hop
    · exact hs t h1
  | update i ty amount =>
    cases hfind : s.txs.find? (fun x => x.id = i) with
    | none =>
      simp only [applyOp, hfind]
      exact hs
    | some u =>
      intro t ht
      simp only [applyOp, hfind] at ht
      rcases mem_modifyFirst i _ s.txs t ht with h1 | ⟨y, hy, h2⟩
      · exact hs t h1
      · rw [h2]
        cases ty with
        | none => exact hs y hy
        | some ty2 => exact fun hh => hop (congrArg some hh)
  | delete i =>
    cases hfind : s.txs.find? (fun x => x.id = i) with
    | none =>
      simp only [applyOp, hfind]
      exact hs
    | some u =>
      intro t ht
      simp only [applyOp, hfind] at ht
      exact hs t (mem_removeFirst i s.txs t ht)

/-- A sequence of operations restricted to the income and expense
kinds keeps the store free of transfer-typed records. -/
theorem applyOps_noTransfer (ops : List TxOp) :
    ∀ s : LedgerState, noTransfer s.txs → (∀ op ∈ ops, op.incomeExpenseOnly) →
      noTransfer (applyOps s ops).txs := by
  induction ops with
  | nil =>
    intro s hs _
    exact hs
  | cons op ops ih =>
    intro s hs hops
    simp only [applyOps, List.foldl_cons]
    exact ih (applyOp s op)
      (applyOp_noTransfer s op hs (hops op (List.mem_cons_self _ _)))
      (fun o ho => hops o (List.mem_cons_of_mem _ ho))

/-- On a store free of transfer-typed records, the effect-sum is the
income total minus the expense total. -/
theorem txEffectSum_eq (txs : List Tx) (h : noTransfer txs) :
    txEffectSum txs = incomeSum txs - expenseSum txs := by
  induction txs with
  | nil => simp [txEffectSum, incomeSum, expenseSum]
  | cons t ts ih =>
    have hts : noTransfer ts := fun u hu => h u (List.mem_cons_of_mem _ hu)
    have hhead := h t (List.mem_cons_self _ _)
    rw [txEffectSum_cons, ih hts]
    cases hty : t.type with
    | income =>
      simp [incomeSum, expenseSum, List.filter_cons, hty, createBalanceChange]
      ring
    | expense =>
      simp [incomeSum, expenseSum, List.filter_cons, hty, createBalanceChange]
      ring
    | transfer => exact absurd hty hhead

/-- C1: after any sequence of create, update and delete operations of
income or expense kind starting from an empty transaction store, the
account balance equals the initial balance plus the amounts of the
currently stored income transactions minus the amounts of the
currently stored expense transactions: deleted and superseded
transactions are fully reversed. -/
theorem transaction_sequence_balance (b0 : ℚ) (ts0 : List TargetSavings) (ops : List TxOp)
    (h : ∀ op ∈ ops, op.incomeExpenseOnly) :
    (applyOps (LedgerState.mk b0 [] ts0) ops).balance
      = b0 + incomeSum (applyOps (LedgerState.mk b0 [] ts0) ops).txs
          - expenseSum (applyOps (LedgerState.mk b0 [] ts0) ops).txs := by
  have hbal := applyOps_balance ops (LedgerState.mk b0 [] ts0)
  have hnt : noTransfer (applyOps (LedgerState.mk b0 [] ts0) ops).txs :=
    applyOps_noTransfer ops _ (fun t ht => absurd ht (List.not_mem_nil t)) h
  rw [txEffectSum_eq _ hnt] at hbal
  have hb : (LedgerState.mk b0 [] ts0).balance = b0 := rfl
  have hnil : txEffectSum (LedgerState.mk b0 [] ts0).txs = 0 := rfl
  rw [hb, hnil] at hbal
  linarith [hbal]

/-- Witness for transaction_sequence_balance on a concrete sequence
that creates, retypes and deletes transactions. -/
theorem transaction_sequence_balance_witness :
    (applyOps (LedgerState.mk 0 [] [])
        [TxOp.create 1 TxType.income 100, TxOp.create 2 TxType.expense 30,
         TxOp.update 1 (some TxType.expense) none, TxOp.delete 2]).balance
      = 0 + incomeSum (applyOps (LedgerState.mk 0 [] [])
            [TxOp.create 1 TxType.income 100, TxOp.create 2 TxType.expense 30,
             TxOp.update 1 (some TxType.expense) none, TxOp.delete 2]).txs
          - expenseSum (applyOps (LedgerState.mk 0 [] [])
            [TxOp.create 1 TxType.income 100, TxOp.create 2 TxType.expense 30,
             TxOp.update 1 (some TxType.expense) none, TxOp.delete 2]).txs :=
  transaction_sequence_balance 0 []
    [TxOp.create 1 TxType.income 100, TxOp.create 2 TxType.expense 30,
     TxOp.update 1 (some TxType.expense) none, TxOp.delete 2] (by decide)

end Flowtrance
